import Mathlib

/-!
Verification of the scrnaseq client library (BiocPy/scrnaseq).

This file gives a shallow embedding of the library's core logic and proves
properties about it:

* `polish_dataset` (src/scrnaseq/polish_dataset.py): density-based
  dense/sparse reformatting of assay matrices, float-to-integer downcasting,
  column-annotation stripping on alternative experiments and the
  nested-alternative-experiment guard.
* `save_dataset` (src/scrnaseq/save_dataset.py): the metadata
  validation/enrichment/write sequence of the private `_save_se` helper.
* `list_datasets` / `search_datasets` (src/scrnaseq/list_datasets.py,
  src/scrnaseq/search_datasets.py): SQL statement construction against the
  SQLite metadata mirror and flattening of the JSON metadata column.

IEEE double values are modelled as rationals extended with a NaN element;
numpy/scipy matrices are modelled as dense row lists or CSR-style sparse row
lists of (column, value) pairs.
-/

namespace Scrnaseq

/-- A matrix element: an IEEE double, modelled as a rational number or NaN. -/
inductive Val where
  | nan : Val
  | num : ℚ → Val
deriving DecidableEq, Repr

/-- numpy elementwise `v != 0`.  By IEEE semantics `NaN != 0` is True. -/
def Val.neZero : Val → Bool
  | .nan => true
  | .num q => decide (q ≠ 0)

/-- numpy elementwise `v != np.nan`.  By IEEE semantics any `!=` comparison
against NaN is True, for every `v` (including NaN itself). -/
def Val.neNanCmp : Val → Bool :=
  fun _ => true

/-- numpy elementwise `v % 1 != 0`.  `NaN % 1` is NaN and `NaN != 0` is True,
so a NaN reports a fractional part; a rational has a fractional part exactly
when its reduced denominator is not 1. -/
def Val.hasFrac : Val → Bool
  | .nan => true
  | .num q => decide (q.den ≠ 1)

/-- numpy `astype(np.int_)` on one element: truncation toward zero.  In the
code this cast is only ever applied to values with zero fractional part
(on which it is the identity). -/
def Val.truncInt : Val → Val
  | .nan => .nan
  | .num q => .num ((q.num / (q.den : ℤ) : ℤ) : ℚ)

/-- Spec-side predicate: the value is a whole number (zero fractional part).
A NaN is not a whole number. -/
def Val.isWhole : Val → Prop
  | .nan => False
  | .num q => ∃ z : ℤ, q = (z : ℚ)

instance (v : Val) : Decidable v.isWhole := by
  cases v with
  | nan => exact isFalse (fun h => h)
  | num q =>
    by_cases h : q.den = 1
    · exact isTrue ⟨q.num, (Rat.den_eq_one_iff q).mp h |>.symm⟩
    · exact isFalse (by
        rintro ⟨z, rfl⟩
        exact h (Rat.den_intCast z))

/-- Spec-side predicate: the value is NaN. -/
def Val.isNaN : Val → Bool
  | .nan => true
  | .num _ => false

/-- Spec-side predicate from the spec text: "non-zero or not-a-number",
the per-element logical OR of "non-zero" and "is NaN". -/
def Val.nonzeroOrNaN (v : Val) : Bool :=
  decide (v ≠ .num 0) || v.isNaN

/-- Element type of a matrix: double precision float or signed integer. -/
inductive DType where
  | float : DType
  | int : DType
deriving DecidableEq, Repr

/-- Physical encoding of a matrix. -/
inductive Enc where
  | dense : Enc
  | sparse : Enc
deriving DecidableEq, Repr

/-- A numpy dense array (list of rows, `ncols` columns each) or a scipy
CSR sparse matrix (per row, the stored (column, value) pairs; absent
positions are implicit zeros). -/
inductive Mat where
  | dense (dt : DType) (ncols : ℕ) (data : List (List Val))
  | sparse (dt : DType) (ncols : ℕ) (rows : List (List (ℕ × Val)))
deriving DecidableEq, Repr

/-- The encoding of a matrix. -/
def Mat.enc : Mat → Enc
  | .dense _ _ _ => .dense
  | .sparse _ _ _ => .sparse

/-- The element type of a matrix. -/
def Mat.dtype : Mat → DType
  | .dense dt _ _ => dt
  | .sparse dt _ _ => dt

/-- Logical value of one sparse row at column `j`: the stored value, if any,
else zero. -/
def lookupRow (j : ℕ) : List (ℕ × Val) → Val
  | [] => .num 0
  | p :: rest => if p.1 = j then p.2 else lookupRow j rest

/-- The logical contents of a matrix, as a grid of rows. -/
def Mat.grid : Mat → List (List Val)
  | .dense _ _ data => data
  | .sparse _ c rows => rows.map (fun r => (List.range c).map (fun j => lookupRow j r))

/-- Total number of logical entries (numpy `size`). -/
def Mat.numEntries (m : Mat) : ℕ :=
  (m.grid.map List.length).sum

/-- Number of logical entries satisfying `p`. -/
def Mat.countP (p : Val → Bool) (m : Mat) : ℕ :=
  (m.grid.map (fun row => (row.filter p).length)).sum

/-- Well-formedness: a dense matrix is rectangular with `ncols` columns; a
sparse matrix has per-row strictly increasing column indices below `ncols`
(canonical CSR form, no duplicate positions). -/
def Mat.wf : Mat → Bool
  | .dense _ c data => data.all (fun row => row.length = c)
  | .sparse _ c rows =>
      rows.all (fun r => decide (List.Chain' (fun p q => p.1 < q.1) r) &&
        r.all (fun p => p.1 < c))

/-- The density computed by `_polish_dataset` line 82:
`min(np.mean(asy != 0), np.mean(asy != np.nan))`, each mean being the number
of True entries over the total number of entries. -/
def densityCode (m : Mat) : ℚ :=
  min ((m.countP Val.neZero : ℚ) / (m.numEntries : ℚ))
    ((m.countP Val.neNanCmp : ℚ) / (m.numEntries : ℚ))

/-- The density as worded by the spec: the fraction of entries that are
non-zero or NaN. -/
def densitySpec (m : Mat) : ℚ :=
  (m.countP Val.nonzeroOrNaN : ℚ) / (m.numEntries : ℚ)

/-- `scipy.sparse.csr_matrix` applied to one dense row starting at column
`j`: keep exactly the entries for which `v != 0` is True (NaN included). -/
def sparsifyRow (j : ℕ) : List Val → List (ℕ × Val)
  | [] => []
  | v :: rest =>
      if v.neZero then (j, v) :: sparsifyRow (j + 1) rest
      else sparsifyRow (j + 1) rest

/-- `scipy.sparse.csr_matrix` applied to a dense matrix. -/
def Mat.toSparse : Mat → Mat
  | .dense dt c data => .sparse dt c (data.map (sparsifyRow 0))
  | m => m

/-- scipy `toarray`: densify a sparse matrix. -/
def Mat.toDense : Mat → Mat
  | .sparse dt c rows => .dense dt c ((Mat.sparse dt c rows).grid)
  | m => m

/-- Lines 81-88 of `_polish_dataset`: density-based reformatting.  With the
threshold disabled (`None`) nothing happens; otherwise densities strictly
below the threshold go to sparse (if not already sparse) and densities at or
above it go to dense (if not already dense). -/
def reformatMat : Option ℚ → Mat → Mat
  | none, m => m
  | some t, m =>
      if densityCode m < t then
        (if m.enc = .sparse then m else m.toSparse)
      else
        (if m.enc = .dense then m else m.toDense)

/-- The values inspected by the integer-conversion check: `asy.data` for a
sparse matrix (only stored entries), the whole array for a dense one. -/
def Mat.storedVals : Mat → List Val
  | .dense _ _ data => data.flatten
  | .sparse _ _ rows => (rows.map (fun r => r.map Prod.snd)).flatten

/-- numpy `astype(np.int_)` on the whole matrix (stored values only for a
sparse matrix; implicit zeros stay zero). -/
def Mat.castInt : Mat → Mat
  | .dense _ c data => .dense .int c (data.map (List.map Val.truncInt))
  | .sparse _ c rows => .sparse .int c (rows.map (List.map (fun p => (p.1, p.2.truncInt))))

/-- Lines 90-100 of `_polish_dataset`: attempt integer conversion.  Only
floating-point matrices are inspected; the cast happens exactly when no
inspected value reports a fractional part under `% 1 != 0`. -/
def intConvertMat (m : Mat) : Mat :=
  if m.dtype = .float then
    if m.storedVals.any Val.hasFrac then m else m.castInt
  else m

/-- The whole per-assay transformation of `_polish_dataset` (lines 80-102):
density-based reformatting followed by optional integer conversion. -/
def polishMat (threshold : Option ℚ) (attemptInt : Bool) (m : Mat) : Mat :=
  let m1 := reformatMat threshold m
  if attemptInt then intConvertMat m1 else m1

/-- A `SummarizedExperiment` / `SingleCellExperiment`:
assay matrices keyed by name, optional row/column annotations (the
annotation payload is abstracted to a string), reduced-dimension matrices,
and, for a `SingleCellExperiment`, named nested alternative experiments.
`alts = none` models a plain `SummarizedExperiment` (the
`isinstance(x, SingleCellExperiment)` test fails); `alts = some l` models a
`SingleCellExperiment` with alternative experiments `l`. -/
inductive Exp where
  | mk (assays : List (String × Mat)) (rowData : Option String)
      (colData : Option String) (redDims : List (String × Mat))
      (alts : Option (List (String × Exp)))

/-- The assay mapping. -/
def Exp.assays : Exp → List (String × Mat)
  | .mk a _ _ _ _ => a

/-- The row annotations. -/
def Exp.rowData : Exp → Option String
  | .mk _ rd _ _ _ => rd

/-- The column annotations. -/
def Exp.colData : Exp → Option String
  | .mk _ _ cd _ _ => cd

/-- The reduced dimensions. -/
def Exp.redDims : Exp → List (String × Mat)
  | .mk _ _ _ red _ => red

/-- The alternative experiments (`none` when the object is not a
`SingleCellExperiment`). -/
def Exp.alts : Exp → Option (List (String × Exp))
  | .mk _ _ _ _ al => al

/-- `set_column_data`. -/
def Exp.setColData (e : Exp) (cd : Option String) : Exp :=
  match e with
  | .mk a rd _ red al => .mk a rd cd red al

/-- `len(x.get_alternative_experiment_names()) > 0`. -/
def Exp.altsNonempty (e : Exp) : Bool :=
  match e.alts with
  | none => false
  | some l => decide (l.length > 0)

/-- The polishing configuration: `reformat_assay_by_density` (`none`
disables density-based reformatting), `attempt_integer_conversion`,
`remove_altexp_coldata`, `forbid_nested_altexp`. -/
structure Cfg where
  reformat : Option ℚ
  attemptInt : Bool
  removeAltColdata : Bool
  forbidNested : Bool
deriving DecidableEq

/-- The error raised on line 109 of polish_dataset.py. -/
def nestedErr : String := "Nested alternative experiments are forbidden."

mutual

/-- `_polish_dataset` (lines 71-129): polish every assay with `polishMat`,
then (for a `SingleCellExperiment`) check the nested-alternative-experiment
guard and recurse into each alternative experiment at `level + 1`. -/
def polishE (cfg : Cfg) (level : ℕ) : Exp → Except String Exp
  | .mk assays rd cd red alts =>
    let newAssays := assays.map
      (fun a => (a.1, polishMat cfg.reformat cfg.attemptInt a.2))
    match alts with
    | none => .ok (.mk newAssays rd cd red none)
    | some l =>
      if l.length > 0 && cfg.forbidNested && decide (level > 0) then
        .error nestedErr
      else
        match polishAlts cfg level l with
        | .error e => .error e
        | .ok newAlts => .ok (.mk newAssays rd cd red (some newAlts))
termination_by e => sizeOf e
decreasing_by
  simp_wf
  omega

/-- The loop over `x.alternative_experiments.items()` (lines 111-125):
strip the column data when `remove_altexp_coldata` is set, then polish the
alternative experiment at `level + 1`. -/
def polishAlts (cfg : Cfg) (level : ℕ) :
    List (String × Exp) → Except String (List (String × Exp))
  | [] => .ok []
  | (n, sub) :: rest =>
    let sub0 := if cfg.removeAltColdata then sub.setColData none else sub
    match polishE cfg (level + 1) sub0 with
    | .error e => .error e
    | .ok sub1 =>
      match polishAlts cfg level rest with
      | .error e => .error e
      | .ok rest1 => .ok ((n, sub1) :: rest1)
termination_by l => sizeOf l
decreasing_by
  all_goals simp_wf
  all_goals cases sub
  all_goals rename_i a rd cd red al
  all_goals cases cfg.removeAltColdata
  all_goals simp [Exp.setColData]
  all_goals try omega

end

mutual

/-- Spec-side predicate: some alternative experiment of `e`, at nesting
depth at least 1 below `e`, itself has at least one alternative
experiment. -/
def Exp.hasNestedAlt : Exp → Bool
  | .mk _ _ _ _ none => false
  | .mk _ _ _ _ (some l) => hasNestedAltList l
termination_by e => sizeOf e
decreasing_by
  simp_wf
  omega

/-- `hasNestedAlt` over a list of named alternative experiments. -/
def hasNestedAltList : List (String × Exp) → Bool
  | [] => false
  | (_, sub) :: rest => sub.altsNonempty || sub.hasNestedAlt || hasNestedAltList rest
termination_by l => sizeOf l
decreasing_by
  all_goals simp_wf
  all_goals omega

end

mutual

/-- Every assay matrix of `e`, at every nesting depth, in traversal
order. -/
def Exp.allAssayMats : Exp → List Mat
  | .mk assays _ _ _ none => assays.map Prod.snd
  | .mk assays _ _ _ (some l) => assays.map Prod.snd ++ allAssayMatsList l
termination_by e => sizeOf e
decreasing_by
  simp_wf
  omega

/-- `allAssayMats` over a list of named alternative experiments. -/
def allAssayMatsList : List (String × Exp) → List Mat
  | [] => []
  | (_, sub) :: rest => sub.allAssayMats ++ allAssayMatsList rest
termination_by l => sizeOf l
decreasing_by
  all_goals simp_wf
  all_goals omega

end

mutual

/-- The column annotations of every strictly nested alternative experiment
of `e`, at every depth, in traversal order. -/
def Exp.allAltColData : Exp → List (Option String)
  | .mk _ _ _ _ none => []
  | .mk _ _ _ _ (some l) => allAltColDataList l
termination_by e => sizeOf e
decreasing_by
  simp_wf
  omega

/-- `allAltColData` over a list of named alternative experiments. -/
def allAltColDataList : List (String × Exp) → List (Option String)
  | [] => []
  | (_, sub) :: rest => (sub.colData :: sub.allAltColData) ++ allAltColDataList rest
termination_by l => sizeOf l
decreasing_by
  all_goals simp_wf
  all_goals omega

end

mutual

/-- All assay matrices of `e`, at every depth, are well formed
(rectangular dense arrays, canonical CSR sparse matrices). -/
def Exp.wfe : Exp → Bool
  | .mk assays _ _ _ none => assays.all (fun a => a.2.wf)
  | .mk assays _ _ _ (some l) => assays.all (fun a => a.2.wf) && wfeList l
termination_by e => sizeOf e
decreasing_by
  simp_wf
  omega

/-- `wfe` over a list of named alternative experiments. -/
def wfeList : List (String × Exp) → Bool
  | [] => true
  | (_, sub) :: rest => sub.wfe && wfeList rest
termination_by l => sizeOf l
decreasing_by
  all_goals simp_wf
  all_goals omega

end

mutual

/-- Mutual induction for `Exp`, shaped after the recursion of `polishE`
and `polishAlts` (the list step also provides the hypothesis for the
column-data-stripped head). -/
def expInd {P : Exp → Prop} {Q : List (String × Exp) → Prop}
    (hexp : ∀ a rd cd red al, (∀ l, al = some l → Q l) → P (.mk a rd cd red al))
    (hnil : Q [])
    (hcons : ∀ n sub rest, P sub → P (sub.setColData none) → Q rest →
      Q ((n, sub) :: rest)) :
    ∀ e : Exp, P e
  | .mk a rd cd red al =>
    hexp a rd cd red al (fun l hl => by
      subst hl
      exact altsInd hexp hnil hcons l)
termination_by e => sizeOf e
decreasing_by
  subst hl
  simp_wf
  omega

/-- List part of the mutual induction for `Exp`. -/
def altsInd {P : Exp → Prop} {Q : List (String × Exp) → Prop}
    (hexp : ∀ a rd cd red al, (∀ l, al = some l → Q l) → P (.mk a rd cd red al))
    (hnil : Q [])
    (hcons : ∀ n sub rest, P sub → P (sub.setColData none) → Q rest →
      Q ((n, sub) :: rest)) :
    ∀ l : List (String × Exp), Q l
  | [] => hnil
  | (n, sub) :: rest =>
    hcons n sub rest (expInd hexp hnil hcons sub)
      (expInd hexp hnil hcons (sub.setColData none))
      (altsInd hexp hnil hcons rest)
termination_by l => sizeOf l
decreasing_by
  all_goals simp_wf
  all_goals cases sub
  all_goals rename_i a rd cd red _al
  all_goals simp [Exp.setColData]
  all_goals try omega

end

/-- The view of a `SummarizedExperiment` that `format_object_metadata`
reads: shape, assay names, column-annotation column names, and (for a
`SingleCellExperiment`) reduced-dimension and alternative-experiment
names. -/
structure SEView where
  nrows : ℕ
  ncols : ℕ
  assayNames : List String
  colDataNames : List String
  isSCE : Bool
  reducedDimNames : List String
  altExpNames : List String
deriving DecidableEq

/-- The `summarized_experiment` block of the takane metadata. -/
structure SEBlock where
  rows : ℕ
  columns : ℕ
  assays : List String
  column_annotations : List String
deriving DecidableEq

/-- The `single_cell_experiment` block of the takane metadata. -/
structure SCEBlock where
  reduced_dimensions : List String
  alternative_experiments : List String
deriving DecidableEq

/-- The `applications.takane` block. -/
structure Takane where
  summarized_experiment : Option SEBlock
  single_cell_experiment : Option SCEBlock
  type : Option String
deriving DecidableEq

/-- `format_object_metadata` (utils.py lines 93-132), restricted to the
`SummarizedExperiment` branch, the only one reachable from `_save_se`. -/
def format_object_metadata (x : SEView) : Takane :=
  { summarized_experiment := some
      { rows := x.nrows, columns := x.ncols, assays := x.assayNames,
        column_annotations := x.colDataNames }
    single_cell_experiment :=
      if x.isSCE then some
        { reduced_dimensions := x.reducedDimNames,
          alternative_experiments := x.altExpNames }
      else none
    type := none }

/-- The `applications` sub-dictionary of a metadata document: the `takane`
entry plus any other entries (abstracted as string pairs, preserved
untouched by `_save_se`). -/
structure Applications where
  takane : Option Takane
  rest : List (String × String)
deriving DecidableEq

/-- A metadata document: top-level scalar fields (title, description,
bioconductor_version, ...) plus the `applications` sub-dictionary.  JSON
serialization followed by parsing is the identity on this model. -/
structure Metadata where
  fields : List (String × String)
  applications : Option Applications
deriving DecidableEq

/-- Python `key in metadata` for a scalar field. -/
def Metadata.hasField (m : Metadata) (k : String) : Bool :=
  m.fields.any (fun p => p.1 = k)

/-- Python `metadata[k] = v`: replace the value if the key exists, else
append the pair. -/
def Metadata.setField (m : Metadata) (k v : String) : Metadata :=
  if m.hasField k then
    { m with fields := m.fields.map (fun p => if p.1 = k then (k, v) else p) }
  else
    { m with fields := m.fields ++ [(k, v)] }

/-- Python `metadata.get(k)` for a scalar field. -/
def Metadata.getField (m : Metadata) (k : String) : Option String :=
  (m.fields.find? (fun p => p.1 = k)).map Prod.snd

/-- Lines 118-121 of save_dataset.py: create `metadata["applications"]` as
an empty dictionary when absent, then assign
`metadata["applications"]["takane"] = takane`. -/
def Metadata.setTakane (m : Metadata) (t : Takane) : Metadata :=
  let apps := match m.applications with
    | none => { takane := none, rest := [] : Applications }
    | some a => a
  { m with applications := some { apps with takane := some t } }

/-- What `_save_se` did to the world and to the caller-supplied metadata
dictionary.  `metaFinal` is the caller's dictionary after the call (Python
mutates it in place, also on the error paths); `metadataFile` is the
content of `_bioconductor.json` when it was written; `validated` lists the
documents passed to `validate_metadata`, in order. -/
structure SaveOutcome where
  result : Except String Unit
  metaFinal : Metadata
  objectWritten : Bool
  metadataFile : Option Metadata
  validated : List Metadata

/-- Lines 105-106 of save_dataset.py: default the `bioconductor_version`
field to "3.19" when absent (mutating the caller's dictionary). -/
def enrichedMeta (metadata : Metadata) : Metadata :=
  if metadata.hasField "bioconductor_version" then metadata
  else metadata.setField "bioconductor_version" "3.19"

/-- Lines 115-116 of save_dataset.py: the automatically computed takane
block, `format_object_metadata(x)` with its `type` set from
`dl.read_object_file(path)["type"]` (abstracted as `objType`). -/
def savedTakane (x : SEView) (objType : String) : Takane :=
  { format_object_metadata x with type := some objType }

/-- Lines 118-121 of save_dataset.py: the metadata document after the
takane block is stored under `applications.takane`. -/
def finalMeta (x : SEView) (objType : String) (metadata : Metadata) :
    Metadata :=
  (enrichedMeta metadata).setTakane (savedTakane x objType)

/-- `_save_se` (save_dataset.py lines 102-127).  The externally fetched
JSON schema and `validate_metadata` are abstracted into the predicate
`valid`; `dl.save_object` writing the object payload is recorded in
`objectWritten`; `objType` stands for `dl.read_object_file(path)["type"]`;
the `json.dumps`/`json.loads` round trip before the second validation is
the identity on this model.  A raised `ValidationError` is the `.error`
result. -/
def saveSE (valid : Metadata → Bool) (x : SEView) (objType : String)
    (metadata : Metadata) : SaveOutcome :=
  let md1 := enrichedMeta metadata
  if valid md1 = false then
    { result := .error "ValidationError", metaFinal := md1,
      objectWritten := false, metadataFile := none, validated := [md1] }
  else
    let md2 := finalMeta x objType metadata
    if valid md2 = false then
      { result := .error "ValidationError", metaFinal := md2,
        objectWritten := true, metadataFile := none, validated := [md1, md2] }
    else
      { result := .ok (), metaFinal := md2, objectWritten := true,
        metadataFile := some md2, validated := [md1, md2] }

/-- The SQL statement built by `list_datasets` (list_datasets.py lines
51-59).  Note that line 54 appends `versions.latest AS latest` through
an f-string that inserts only a space, no comma, after `path`. -/
def list_datasets_stmt (latest : Bool) : String :=
  let stmt := "SELECT json_extract(metadata, '$') AS meta, versions.asset AS asset, versions.version AS version, path"
  let stmt := if latest = true then stmt else stmt ++ " versions.latest AS latest"
  let stmt := stmt ++ " FROM paths LEFT JOIN versions ON paths.vid = versions.vid WHERE versions.project = 'scRNAseq'"
  if latest = true then stmt ++ " AND versions.latest = 1" else stmt

/-- The key names `list_datasets` pairs with the query columns. -/
def list_datasets_keyNames (latest : Bool) : List String :=
  let k := ["meta", "asset", "version", "path"]
  if latest = true then k else k ++ ["latest"]

/-- The SQL statement built by `search_datasets` (search_datasets.py lines
91-104); `cond` is the filter clause list from
`search_metadata_text_filter`.  Line 95 appends `, versions.latest AS
latest` with a comma. -/
def search_datasets_stmt (latest : Bool) (cond : List String) : String :=
  let stmt := "SELECT json_extract(metadata, '$') AS meta, versions.asset AS asset, versions.version AS version, path"
  let stmt := if latest then stmt else stmt ++ ", versions.latest AS latest"
  let stmt := stmt ++ " FROM paths LEFT JOIN versions ON paths.vid = versions.vid WHERE versions.project = 'scRNAseq'"
  let stmt := if latest then stmt ++ " AND versions.latest = 1" else stmt
  if cond.isEmpty then stmt else stmt ++ " AND " ++ String.intercalate " AND " cond

/-- The key names `search_datasets` pairs with the query columns. -/
def search_datasets_keyNames (latest : Bool) : List String :=
  let k := ["meta", "asset", "version", "path"]
  if latest then k else k ++ ["latest"]

/-- The characters before the first ` FROM ` of a SQL statement. -/
def untilFrom : List Char → List Char
  | [] => []
  | ' ' :: 'F' :: 'R' :: 'O' :: 'M' :: ' ' :: _ => []
  | c :: rest => c :: untilFrom rest

/-- Split a character list on the two-character separator `, `;
`cur` accumulates the current item in reverse. -/
def splitCS : List Char → List Char → List (List Char)
  | [], cur => [cur.reverse]
  | ',' :: ' ' :: rest, cur => cur.reverse :: splitCS rest []
  | c :: rest, cur => splitCS rest (c :: cur)

/-- The result columns of a SELECT statement: the text between `SELECT `
and ` FROM `, split on `, `. -/
def selectItems (stmt : String) : List String :=
  (splitCS (untilFrom (stmt.toList.drop 7)) []).map (fun cs => String.mk cs)

/-- One parsed dataset metadata document, restricted to the fields the
claims are about. -/
structure DsMeta where
  title : Option String
  description : Option String
deriving DecidableEq, Repr

/-- `_extract_atomic_from_json` (list_datasets.py lines 169-170):
`extract(meta) if extract(meta) is not None else None`, which is
`extract(meta)`. -/
def extractAtomic (metas : List DsMeta) (f : DsMeta → Option String) :
    List (Option String) :=
  metas.map f

/-- The `title` output column (list_datasets.py line 104): extracted with
`lambda x: x.get("title")`. -/
def titleColumn (metas : List DsMeta) : List (Option String) :=
  extractAtomic metas (fun x => x.title)

/-- The `description` output column (list_datasets.py line 105): extracted
with `lambda x: x.get("title")` as written in the source. -/
def descriptionColumn (metas : List DsMeta) : List (Option String) :=
  extractAtomic metas (fun x => x.title)

/-- The `latest` output column (list_datasets.py lines 95-97):
`[s == 1 for s in results["latest"]]` over the integers stored in the
SQLite `latest` column. -/
def latestColumn (vals : List ℤ) : List Bool :=
  vals.map (fun s => s == 1)

theorem val_neZero_eq_nonzeroOrNaN (v : Val) : v.neZero = v.nonzeroOrNaN := by
  cases v with
  | nan => rfl
  | num q =>
    by_cases h : q = 0 <;> simp [Val.neZero, Val.nonzeroOrNaN, Val.isNaN, h]

theorem countP_neNanCmp (m : Mat) : m.countP Val.neNanCmp = m.numEntries := by
  unfold Mat.countP Mat.numEntries
  congr 1
  apply List.map_congr_left
  intro row _
  simp [Val.neNanCmp]

theorem countP_le_numEntries (p : Val → Bool) (m : Mat) :
    m.countP p ≤ m.numEntries := by
  unfold Mat.countP Mat.numEntries
  apply List.sum_le_sum
  intro row _
  exact List.length_filter_le p row

theorem densityCode_eq_densitySpec (m : Mat) (hn : 0 < m.numEntries) :
    densityCode m = densitySpec m := by
  unfold densityCode densitySpec
  rw [countP_neNanCmp]
  have hne : (m.numEntries : ℚ) ≠ 0 := by
    exact_mod_cast Nat.pos_iff_ne_zero.mp hn
  rw [div_self hne]
  have hle : (m.countP Val.neZero : ℚ) / (m.numEntries : ℚ) ≤ 1 := by
    rw [div_le_one (by exact_mod_cast hn)]
    exact_mod_cast countP_le_numEntries Val.neZero m
  rw [min_eq_left hle]
  have hfun : Val.neZero = Val.nonzeroOrNaN := funext val_neZero_eq_nonzeroOrNaN
  rw [hfun]

theorem enc_castInt (m : Mat) : m.castInt.enc = m.enc := by
  cases m <;> rfl

theorem dtype_castInt (m : Mat) : m.castInt.dtype = .int := by
  cases m <;> rfl

theorem enc_intConvert (m : Mat) : (intConvertMat m).enc = m.enc := by
  unfold intConvertMat
  split_ifs <;> simp [enc_castInt]

theorem reformatMat_none (m : Mat) : reformatMat none m = m := rfl

theorem reformatMat_some (t : ℚ) (m : Mat) :
    reformatMat (some t) m =
      if densityCode m < t then (if m.enc = .sparse then m else m.toSparse)
      else (if m.enc = .dense then m else m.toDense) := rfl

theorem dtype_toSparse (m : Mat) : m.toSparse.dtype = m.dtype := by
  cases m <;> rfl

theorem dtype_toDense (m : Mat) : m.toDense.dtype = m.dtype := by
  cases m <;> rfl

theorem dtype_reformat (t : Option ℚ) (m : Mat) :
    (reformatMat t m).dtype = m.dtype := by
  cases t with
  | none => rfl
  | some th =>
    rw [reformatMat_some]
    split_ifs <;> simp [dtype_toSparse, dtype_toDense]

theorem enc_reformat_some (t : ℚ) (m : Mat) :
    (reformatMat (some t) m).enc =
      if densityCode m < t then Enc.sparse else Enc.dense := by
  rw [reformatMat_some]
  split_ifs with h h1 h2
  · exact h1
  · cases m with
    | dense dt c data => rfl
    | sparse dt c rows => simp [Mat.enc] at h1
  · exact h2
  · cases m with
    | dense dt c data => simp [Mat.enc] at h2
    | sparse dt c rows => rfl

theorem reformat_sparse_stays (t : ℚ) (m : Mat) (h : densityCode m < t)
    (hs : m.enc = .sparse) : reformatMat (some t) m = m := by
  rw [reformatMat_some, if_pos h, if_pos hs]

theorem reformat_dense_stays (t : ℚ) (m : Mat) (h : ¬ densityCode m < t)
    (hd : m.enc = .dense) : reformatMat (some t) m = m := by
  rw [reformatMat_some, if_neg h, if_pos hd]

theorem enc_polishMat (t : Option ℚ) (b : Bool) (m : Mat) :
    (polishMat t b m).enc = (reformatMat t m).enc := by
  unfold polishMat
  cases b <;> simp [enc_intConvert]

theorem dtype_polishMat_eq (t : Option ℚ) (b : Bool) (m : Mat) :
    (polishMat t b m).dtype =
      (if b then intConvertMat (reformatMat t m) else reformatMat t m).dtype := by
  unfold polishMat
  cases b <;> rfl

/-- C1: for every assay matrix and every enabled density threshold in
[0,1], the density computed on line 82 of polish_dataset.py equals the
fraction of entries that are non-zero or NaN; the polished matrix is
sparse exactly when that density is strictly below the threshold and dense
exactly when it is at or above it; a matrix already in the target encoding
is returned by the reformatting step unchanged; a disabled threshold
(`None`) performs no density-based conversion. -/
theorem c1_density_reformat (t : ℚ) (b : Bool) (m : Mat)
    (_h0 : 0 ≤ t) (_h1 : t ≤ 1) (hn : 0 < m.numEntries) :
    densityCode m = densitySpec m ∧
    ((polishMat (some t) b m).enc = .sparse ↔ densitySpec m < t) ∧
    ((polishMat (some t) b m).enc = .dense ↔ t ≤ densitySpec m) ∧
    (densitySpec m < t → m.enc = .sparse → reformatMat (some t) m = m) ∧
    (t ≤ densitySpec m → m.enc = .dense → reformatMat (some t) m = m) ∧
    reformatMat none m = m ∧
    (polishMat none b m).enc = m.enc := by
  have hd := densityCode_eq_densitySpec m hn
  refine ⟨hd, ?_, ?_, ?_, ?_, rfl, ?_⟩
  · rw [enc_polishMat, enc_reformat_some, hd]
    split_ifs with h <;> simp [h]
  · rw [enc_polishMat, enc_reformat_some, hd]
    split_ifs with h
    · simp [not_le.mpr h]
    · simp [le_of_not_lt h]
  · intro hlt hs
    exact reformat_sparse_stays t m (hd ▸ hlt) hs
  · intro hge hdn
    exact reformat_dense_stays t m (by rw [hd]; exact not_lt.mpr hge) hdn
  · rw [enc_polishMat]
    rfl

/-- Witness for C1 at a concrete 1-by-2 dense float matrix [[1, 0]] and
threshold 3/4: the density is 1/2, strictly below the threshold, so the
result is sparse. -/
theorem c1_density_reformat_witness :
    (0 : ℚ) ≤ 3/4 ∧ (3/4 : ℚ) ≤ 1 ∧
      0 < (Mat.dense .float 2 [[.num 1, .num 0]]).numEntries ∧
      (densityCode (Mat.dense .float 2 [[.num 1, .num 0]]) =
        densitySpec (Mat.dense .float 2 [[.num 1, .num 0]]) ∧
      ((polishMat (some (3/4)) false (Mat.dense .float 2 [[.num 1, .num 0]])).enc
          = .sparse ↔
        densitySpec (Mat.dense .float 2 [[.num 1, .num 0]]) < 3/4) ∧
      ((polishMat (some (3/4)) false (Mat.dense .float 2 [[.num 1, .num 0]])).enc
          = .dense ↔
        (3/4 : ℚ) ≤ densitySpec (Mat.dense .float 2 [[.num 1, .num 0]])) ∧
      (densitySpec (Mat.dense .float 2 [[.num 1, .num 0]]) < 3/4 →
        (Mat.dense .float 2 [[.num 1, .num 0]]).enc = .sparse →
        reformatMat (some (3/4)) (Mat.dense .float 2 [[.num 1, .num 0]]) =
          Mat.dense .float 2 [[.num 1, .num 0]]) ∧
      ((3/4 : ℚ) ≤ densitySpec (Mat.dense .float 2 [[.num 1, .num 0]]) →
        (Mat.dense .float 2 [[.num 1, .num 0]]).enc = .dense →
        reformatMat (some (3/4)) (Mat.dense .float 2 [[.num 1, .num 0]]) =
          Mat.dense .float 2 [[.num 1, .num 0]]) ∧
      reformatMat none (Mat.dense .float 2 [[.num 1, .num 0]]) =
        Mat.dense .float 2 [[.num 1, .num 0]] ∧
      (polishMat none false (Mat.dense .float 2 [[.num 1, .num 0]])).enc =
        (Mat.dense .float 2 [[.num 1, .num 0]]).enc) :=
  ⟨by norm_num, by norm_num, by decide,
    c1_density_reformat (3/4) false (Mat.dense .float 2 [[.num 1, .num 0]])
      (by norm_num) (by norm_num) (by decide)⟩

theorem hasFrac_false_iff (v : Val) : v.hasFrac = false ↔ v.isWhole := by
  cases v with
  | nan => simp [Val.hasFrac, Val.isWhole]
  | num q =>
    simp only [Val.hasFrac, Val.isWhole, decide_eq_false_iff_not, not_not]
    constructor
    · intro h
      exact ⟨q.num, ((Rat.den_eq_one_iff q).mp h).symm⟩
    · rintro ⟨z, rfl⟩
      exact Rat.den_intCast z

theorem any_hasFrac_false_iff (l : List Val) :
    l.any Val.hasFrac = false ↔ ∀ v ∈ l, v.isWhole := by
  simp only [List.any_eq_false, Bool.not_eq_true]
  constructor
  · intro h v hv
    exact (hasFrac_false_iff v).mp (h v hv)
  · intro h v hv
    exact (hasFrac_false_iff v).mpr (h v hv)

theorem dtype_intConvert_float (m : Mat) (hf : m.dtype = .float) :
    ((intConvertMat m).dtype = .int ↔ m.storedVals.any Val.hasFrac = false) ∧
    (m.storedVals.any Val.hasFrac = true → intConvertMat m = m) := by
  unfold intConvertMat
  rw [if_pos hf]
  split_ifs with h2
  · constructor
    · rw [hf]
      simp [h2]
    · intro _
      rfl
  · constructor
    · simp only [dtype_castInt, true_iff]
      exact Bool.not_eq_true _ ▸ h2
    · intro hc
      exact absurd hc h2

/-- C2: for a floating-point assay matrix, with integer conversion enabled,
`_polish_dataset` recasts the (possibly density-reformatted) matrix to the
signed integer type exactly when every inspected stored value — the stored
entries of a sparse matrix, all entries of a dense one — is a whole number;
a NaN among the inspected values always leaves the matrix floating
point. -/
theorem c2_integer_conversion (t : Option ℚ) (m : Mat) (hf : m.dtype = .float) :
    ((polishMat t true m).dtype = .int ↔
      ∀ v ∈ (reformatMat t m).storedVals, v.isWhole) ∧
    (Val.nan ∈ (reformatMat t m).storedVals →
      (polishMat t true m).dtype = .float) := by
  have hf1 : (reformatMat t m).dtype = .float := by
    rw [dtype_reformat]
    exact hf
  have hpol : polishMat t true m = intConvertMat (reformatMat t m) := rfl
  rw [hpol]
  obtain ⟨hiff, htrue⟩ := dtype_intConvert_float (reformatMat t m) hf1
  constructor
  · rw [hiff, any_hasFrac_false_iff]
  · intro hnan
    have hany : (reformatMat t m).storedVals.any Val.hasFrac = true := by
      rw [List.any_eq_true]
      exact ⟨.nan, hnan, rfl⟩
    rw [htrue hany]
    exact hf1

/-- Witness for C2 at the 1-by-1 dense float matrix [[3/2]] with the
density threshold disabled: 3/2 is not whole, so the matrix stays
floating point. -/
theorem c2_integer_conversion_witness :
    (Mat.dense .float 1 [[.num (3/2)]]).dtype = .float ∧
      (((polishMat none true (Mat.dense .float 1 [[.num (3/2)]])).dtype = .int ↔
        ∀ v ∈ (reformatMat none (Mat.dense .float 1 [[.num (3/2)]])).storedVals,
          v.isWhole) ∧
      (Val.nan ∈ (reformatMat none (Mat.dense .float 1 [[.num (3/2)]])).storedVals →
        (polishMat none true (Mat.dense .float 1 [[.num (3/2)]])).dtype = .float)) :=
  ⟨rfl, c2_integer_conversion none (Mat.dense .float 1 [[.num (3/2)]]) rfl⟩

theorem neZero_false_iff (v : Val) : v.neZero = false ↔ v = .num 0 := by
  cases v with
  | nan => simp [Val.neZero]
  | num q => simp [Val.neZero]

theorem lookupRow_sparsify_lt (row : List Val) :
    ∀ j0 j, j < j0 → lookupRow j (sparsifyRow j0 row) = .num 0 := by
  induction row with
  | nil => intro j0 j _; rfl
  | cons v rest ih =>
    intro j0 j hj
    unfold sparsifyRow
    split_ifs with hz
    · unfold lookupRow
      rw [if_neg (by omega)]
      exact ih (j0 + 1) j (by omega)
    · exact ih (j0 + 1) j (by omega)

theorem lookupRow_sparsify (row : List Val) :
    ∀ j0 k, k < row.length →
      lookupRow (j0 + k) (sparsifyRow j0 row) = row.getD k (.num 0) := by
  induction row with
  | nil => intro j0 k hk; simp at hk
  | cons v rest ih =>
    intro j0 k hk
    unfold sparsifyRow
    cases k with
    | zero =>
      split_ifs with hz
      · simp [lookupRow]
      · rw [lookupRow_sparsify_lt rest (j0 + 1) (j0 + 0) (by omega),
          List.getD_cons_zero]
        exact ((neZero_false_iff v).mp (by simpa using hz)).symm
    | succ k =>
      have hstep : j0 + (k + 1) = (j0 + 1) + k := by omega
      have hk2 : k < rest.length := by simpa using hk
      split_ifs with hz
      · unfold lookupRow
        rw [if_neg (by simp), hstep, List.getD_cons_succ]
        exact ih (j0 + 1) k hk2
      · rw [hstep, List.getD_cons_succ]
        exact ih (j0 + 1) k hk2

theorem range_map_getD (row : List Val) (c : ℕ) (h : row.length = c) :
    (List.range c).map (fun j => row.getD j (.num 0)) = row := by
  apply List.ext_getElem
  · simp [h]
  · intro i h1 h2
    simp only [List.getElem_map, List.getElem_range]
    rw [List.getD_eq_getElem]

theorem grid_toSparse_dense (dt : DType) (c : ℕ) (data : List (List Val))
    (h : ∀ row ∈ data, row.length = c) :
    (Mat.dense dt c data).toSparse.grid = data := by
  show (data.map (sparsifyRow 0)).map
      (fun r => (List.range c).map (fun j => lookupRow j r)) = data
  rw [List.map_map]
  conv_rhs => rw [← List.map_id data]
  apply List.map_congr_left
  intro row hrow
  simp only [Function.comp_apply, id_eq]
  calc (List.range c).map (fun j => lookupRow j (sparsifyRow 0 row))
      = (List.range c).map (fun j => row.getD j (.num 0)) := by
        apply List.map_congr_left
        intro j hj
        have hjlen : j < row.length := by
          rw [h row hrow]
          exact List.mem_range.mp hj
        have := lookupRow_sparsify row 0 j hjlen
        simpa using this
    _ = row := range_map_getD row c (h row hrow)

theorem wf_dense_rect (dt : DType) (c : ℕ) (data : List (List Val))
    (hwf : (Mat.dense dt c data).wf = true) :
    ∀ row ∈ data, row.length = c := by
  intro row hrow
  unfold Mat.wf at hwf
  rw [List.all_eq_true] at hwf
  simpa using hwf row hrow

theorem grid_toDense (m : Mat) : m.toDense.grid = m.grid := by
  cases m <;> rfl

theorem enc_toDense (m : Mat) : m.toDense.enc = .dense := by
  cases m <;> rfl

theorem grid_reformat (t : Option ℚ) (m : Mat) (hwf : m.wf = true) :
    (reformatMat t m).grid = m.grid := by
  cases t with
  | none => rfl
  | some th =>
    rw [reformatMat_some]
    split_ifs with h1 h2 h3
    · rfl
    · cases m with
      | dense dt c data => exact grid_toSparse_dense dt c data (wf_dense_rect dt c data hwf)
      | sparse dt c rows => simp [Mat.enc] at h2
    · rfl
    · exact grid_toDense m

theorem lookupRow_mem (j : ℕ) (r : List (ℕ × Val)) :
    lookupRow j r = .num 0 ∨ lookupRow j r ∈ r.map Prod.snd := by
  induction r with
  | nil => left; rfl
  | cons p rest ih =>
    unfold lookupRow
    split_ifs with h
    · right
      simp
    · rcases ih with h0 | hmem
      · left; exact h0
      · right
        simp only [List.map_cons, List.mem_cons]
        right
        exact hmem

theorem truncInt_num_zero : Val.truncInt (.num 0) = .num 0 := by
  rfl

theorem lookupRow_map_trunc (j : ℕ) (r : List (ℕ × Val)) :
    lookupRow j (r.map (fun p => (p.1, p.2.truncInt))) =
      (lookupRow j r).truncInt := by
  induction r with
  | nil => simp [lookupRow, truncInt_num_zero]
  | cons p rest ih =>
    simp only [List.map_cons]
    unfold lookupRow
    split_ifs with h
    · rfl
    · exact ih

theorem grid_castInt (m : Mat) :
    m.castInt.grid = m.grid.map (List.map Val.truncInt) := by
  cases m with
  | dense dt c data => rfl
  | sparse dt c rows =>
    show (rows.map (List.map (fun p => (p.1, p.2.truncInt)))).map
        (fun r => (List.range c).map (fun j => lookupRow j r)) =
      (rows.map (fun r => (List.range c).map (fun j => lookupRow j r))).map
        (List.map Val.truncInt)
    rw [List.map_map, List.map_map]
    apply List.map_congr_left
    intro r _
    simp only [Function.comp_apply, List.map_map]
    apply List.map_congr_left
    intro j _
    simp only [Function.comp_apply]
    exact lookupRow_map_trunc j r

theorem truncInt_whole (v : Val) (h : v.isWhole) : v.truncInt = v := by
  cases v with
  | nan => rfl
  | num q =>
    obtain ⟨z, rfl⟩ := h
    show Val.num (((z : ℚ).num / (((z : ℚ).den : ℤ)) : ℤ) : ℚ) = Val.num (z : ℚ)
    rw [Rat.num_intCast, Rat.den_intCast]
    norm_num

theorem num_zero_isWhole : Val.isWhole (.num 0) := ⟨0, by norm_num⟩

theorem mem_grid_storedVals (m : Mat) :
    ∀ row ∈ m.grid, ∀ v ∈ row, v = .num 0 ∨ v ∈ m.storedVals := by
  cases m with
  | dense dt c data =>
    intro row hrow v hv
    right
    unfold Mat.storedVals
    rw [List.mem_flatten]
    exact ⟨row, hrow, hv⟩
  | sparse dt c rows =>
    intro row hrow v hv
    simp only [Mat.grid, List.mem_map] at hrow
    obtain ⟨r, hr, rfl⟩ := hrow
    simp only [List.mem_map] at hv
    obtain ⟨j, _, rfl⟩ := hv
    rcases lookupRow_mem j r with h0 | hmem
    · left; exact h0
    · right
      unfold Mat.storedVals
      rw [List.mem_flatten]
      exact ⟨r.map Prod.snd, List.mem_map_of_mem _ hr, hmem⟩

theorem grid_intConvert (m : Mat) : (intConvertMat m).grid = m.grid := by
  unfold intConvertMat
  split_ifs with h1 h2
  · rfl
  · rw [grid_castInt]
    conv_rhs => rw [← List.map_id m.grid]
    apply List.map_congr_left
    intro row hrow
    simp only [id_eq]
    conv_rhs => rw [← List.map_id row]
    apply List.map_congr_left
    intro v hv
    simp only [id_eq]
    apply truncInt_whole
    rcases mem_grid_storedVals m row hrow v hv with rfl | hmem
    · exact num_zero_isWhole
    · exact (any_hasFrac_false_iff m.storedVals).mp
        (Bool.not_eq_true _ ▸ h2) v hmem
  · rfl

theorem grid_polishMat (t : Option ℚ) (b : Bool) (m : Mat)
    (hwf : m.wf = true) : (polishMat t b m).grid = m.grid := by
  unfold polishMat
  cases b with
  | false => exact grid_reformat t m hwf
  | true =>
    show (intConvertMat (reformatMat t m)).grid = m.grid
    rw [grid_intConvert]
    exact grid_reformat t m hwf

theorem densityCode_congr (m1 m2 : Mat) (h : m1.grid = m2.grid) :
    densityCode m1 = densityCode m2 := by
  unfold densityCode Mat.countP Mat.numEntries
  rw [h]

theorem intConvert_idem (m : Mat) :
    intConvertMat (intConvertMat m) = intConvertMat m := by
  by_cases hf : m.dtype = .float
  · by_cases ha : m.storedVals.any Val.hasFrac = true
    · have h1 : intConvertMat m = m := by
        unfold intConvertMat
        rw [if_pos hf, if_pos ha]
      rw [h1, h1]
    · have h1 : intConvertMat m = m.castInt := by
        unfold intConvertMat
        rw [if_pos hf, if_neg ha]
      rw [h1]
      unfold intConvertMat
      rw [if_neg (by rw [dtype_castInt]; intro h; exact DType.noConfusion h)]
  · have h1 : intConvertMat m = m := by
      unfold intConvertMat
      rw [if_neg hf]
    rw [h1, h1]

theorem enc_toSparse_of_not_sparse (m : Mat) (h : ¬ m.enc = .sparse) :
    m.toSparse.enc = .sparse := by
  cases m with
  | dense dt c data => rfl
  | sparse dt c rows => exact absurd rfl h

theorem polishMat_intConvert_comm (t : Option ℚ) (b : Bool) (m : Mat) :
    polishMat t b m = if b then intConvertMat (reformatMat t m)
      else reformatMat t m := by
  cases b <;> rfl

theorem polishMat_idem (t : Option ℚ) (b : Bool) (m : Mat)
    (hwf : m.wf = true) :
    polishMat t b (polishMat t b m) = polishMat t b m := by
  have hgrid : (polishMat t b m).grid = m.grid := grid_polishMat t b m hwf
  have hdc : densityCode (polishMat t b m) = densityCode m :=
    densityCode_congr _ _ hgrid
  have hreform2 : reformatMat t (polishMat t b m) = polishMat t b m := by
    cases t with
    | none => rfl
    | some th =>
      by_cases hlt : densityCode m < th
      · apply reformat_sparse_stays th _ (by rw [hdc]; exact hlt)
        rw [enc_polishMat, enc_reformat_some, if_pos hlt]
      · apply reformat_dense_stays th _ (by rw [hdc]; exact hlt)
        rw [enc_polishMat, enc_reformat_some, if_neg hlt]
  rw [polishMat_intConvert_comm t b (polishMat t b m), hreform2]
  cases b with
  | false => rfl
  | true =>
    show intConvertMat (polishMat t true m) = polishMat t true m
    rw [show polishMat t true m = intConvertMat (reformatMat t m) from rfl]
    exact intConvert_idem (reformatMat t m)

theorem polishE_none (cfg : Cfg) (lvl : ℕ) (a : List (String × Mat))
    (rd cd : Option String) (red : List (String × Mat)) :
    polishE cfg lvl (.mk a rd cd red none) =
      .ok (.mk (a.map (fun p => (p.1, polishMat cfg.reformat cfg.attemptInt p.2)))
        rd cd red none) := by
  rw [polishE]

theorem polishE_some (cfg : Cfg) (lvl : ℕ) (a : List (String × Mat))
    (rd cd : Option String) (red : List (String × Mat))
    (l : List (String × Exp)) :
    polishE cfg lvl (.mk a rd cd red (some l)) =
      if l.length > 0 && cfg.forbidNested && decide (lvl > 0) then
        .error nestedErr
      else
        match polishAlts cfg lvl l with
        | .error e => .error e
        | .ok newAlts =>
            .ok (.mk (a.map (fun p => (p.1, polishMat cfg.reformat cfg.attemptInt p.2)))
              rd cd red (some newAlts)) := by
  rw [polishE]

theorem polishAlts_nil (cfg : Cfg) (lvl : ℕ) : polishAlts cfg lvl [] = .ok [] := by
  rw [polishAlts]

theorem polishAlts_cons (cfg : Cfg) (lvl : ℕ) (n : String) (sub : Exp)
    (rest : List (String × Exp)) :
    polishAlts cfg lvl ((n, sub) :: rest) =
      (match polishE cfg (lvl + 1)
          (if cfg.removeAltColdata then sub.setColData none else sub) with
       | .error e => .error e
       | .ok sub1 =>
         match polishAlts cfg lvl rest with
         | .error e => .error e
         | .ok rest1 => .ok ((n, sub1) :: rest1)) := by
  rw [polishAlts]

theorem setColData_alts (e : Exp) (cd : Option String) :
    (e.setColData cd).alts = e.alts := by
  cases e
  rfl

theorem setColData_altsNonempty (e : Exp) (cd : Option String) :
    (e.setColData cd).altsNonempty = e.altsNonempty := by
  unfold Exp.altsNonempty
  rw [setColData_alts]

theorem hasNestedAlt_none (a : List (String × Mat)) (rd cd : Option String)
    (red : List (String × Mat)) :
    (Exp.mk a rd cd red none).hasNestedAlt = false := by
  rw [Exp.hasNestedAlt]

theorem hasNestedAlt_some (a : List (String × Mat)) (rd cd : Option String)
    (red : List (String × Mat)) (l : List (String × Exp)) :
    (Exp.mk a rd cd red (some l)).hasNestedAlt = hasNestedAltList l := by
  rw [Exp.hasNestedAlt]

theorem hasNestedAltList_nil : hasNestedAltList [] = false := by
  rw [hasNestedAltList]

theorem hasNestedAltList_cons (n : String) (sub : Exp)
    (rest : List (String × Exp)) :
    hasNestedAltList ((n, sub) :: rest) =
      (sub.altsNonempty || sub.hasNestedAlt || hasNestedAltList rest) := by
  rw [hasNestedAltList]

theorem hasNestedAlt_imp_altsNonempty (e : Exp)
    (h : e.hasNestedAlt = true) : e.altsNonempty = true := by
  cases e with
  | mk a rd cd red al =>
    cases al with
    | none => rw [hasNestedAlt_none] at h; exact absurd h (by simp)
    | some l =>
      cases l with
      | nil =>
        rw [hasNestedAlt_some, hasNestedAltList_nil] at h
        exact absurd h (by simp)
      | cons p rest =>
        unfold Exp.altsNonempty
        simp [Exp.alts]

theorem hasNestedAltList_eq_any (l : List (String × Exp)) :
    hasNestedAltList l = l.any (fun p => p.2.altsNonempty) := by
  induction l with
  | nil => rw [hasNestedAltList_nil]; rfl
  | cons p rest ih =>
    obtain ⟨n, sub⟩ := p
    rw [hasNestedAltList_cons, ih]
    simp only [List.any_cons]
    cases hne : sub.altsNonempty
    · cases hnest : sub.hasNestedAlt
      · simp
      · rw [hasNestedAlt_imp_altsNonempty sub hnest] at hne
        exact absurd hne (by simp)
    · simp

theorem polishE_err_of_deep (cfg : Cfg) (hf : cfg.forbidNested = true)
    (lvl : ℕ) (hlvl : 0 < lvl) (e : Exp) (hne : e.altsNonempty = true) :
    polishE cfg lvl e = .error nestedErr := by
  cases e with
  | mk a rd cd red al =>
    cases al with
    | none =>
      unfold Exp.altsNonempty at hne
      simp [Exp.alts] at hne
    | some l =>
      rw [polishE_some]
      unfold Exp.altsNonempty at hne
      simp only [Exp.alts, decide_eq_true_eq] at hne
      rw [if_pos]
      simp [hne, hf, hlvl]

theorem polishE_ok_of_shallow (cfg : Cfg) (lvl : ℕ) (e : Exp)
    (hne : e.altsNonempty = false) :
    ∃ e2, polishE cfg lvl e = .ok e2 := by
  cases e with
  | mk a rd cd red al =>
    cases al with
    | none => exact ⟨_, polishE_none cfg lvl a rd cd red⟩
    | some l =>
      cases l with
      | cons p rest =>
        unfold Exp.altsNonempty at hne
        simp [Exp.alts] at hne
      | nil =>
        rw [polishE_some]
        rw [if_neg (by simp)]
        rw [polishAlts_nil]
        exact ⟨_, rfl⟩

theorem polishAlts_err_iff (cfg : Cfg) (hf : cfg.forbidNested = true)
    (l : List (String × Exp)) :
    polishAlts cfg 0 l = .error nestedErr ↔
      l.any (fun p => p.2.altsNonempty) = true := by
  induction l with
  | nil =>
    rw [polishAlts_nil]
    simp
  | cons p rest ih =>
    obtain ⟨n, sub⟩ := p
    rw [polishAlts_cons]
    cases hne : sub.altsNonempty
    · have hne0 : (if cfg.removeAltColdata then sub.setColData none
          else sub).altsNonempty = false := by
        split_ifs
        · rw [setColData_altsNonempty]; exact hne
        · exact hne
      obtain ⟨sub1, hsub1⟩ := polishE_ok_of_shallow cfg 1 _ hne0
      rw [hsub1]
      simp only [List.any_cons, hne, Bool.false_or]
      cases hrest : polishAlts cfg 0 rest with
      | error msg =>
        constructor
        · intro h
          apply ih.mp
          rw [hrest]
          exact h
        · intro h
          have h2 := ih.mpr h
          rw [hrest] at h2
          exact h2
      | ok rest1 =>
        constructor
        · intro h
          simp at h
        · intro h
          have h2 := ih.mpr h
          rw [hrest] at h2
          exact absurd h2 (by simp)
    · have hne0 : (if cfg.removeAltColdata then sub.setColData none
          else sub).altsNonempty = true := by
        split_ifs
        · rw [setColData_altsNonempty]; exact hne
        · exact hne
      rw [polishE_err_of_deep cfg hf 1 (by omega) _ hne0]
      simp [hne]

theorem polishE_err_iff (cfg : Cfg) (hf : cfg.forbidNested = true) (e : Exp) :
    polishE cfg 0 e = .error nestedErr ↔ e.hasNestedAlt = true := by
  cases e with
  | mk a rd cd red al =>
    cases al with
    | none =>
      rw [polishE_none, hasNestedAlt_none]
      simp
    | some l =>
      rw [polishE_some, hasNestedAlt_some, hasNestedAltList_eq_any]
      rw [if_neg (by simp)]
      rw [← polishAlts_err_iff cfg hf l]
      cases hp : polishAlts cfg 0 l with
      | error msg =>
        simp only
        constructor
        · intro h
          injection h with h2
          rw [h2]
        · intro h
          injection h with h2
          rw [h2]
      | ok newAlts =>
        simp

theorem polishE_ok_of_noforbid (cfg : Cfg) (hf : cfg.forbidNested = false)
    (e : Exp) : ∀ lvl, ∃ e2, polishE cfg lvl e = .ok e2 := by
  refine expInd (P := fun e => ∀ lvl, ∃ e2, polishE cfg lvl e = .ok e2)
    (Q := fun l => ∀ lvl, ∃ l2, polishAlts cfg lvl l = .ok l2) ?_ ?_ ?_ e
  · intro a rd cd red al hQ lvl
    cases al with
    | none => exact ⟨_, polishE_none cfg lvl a rd cd red⟩
    | some l =>
      rw [polishE_some, if_neg (by simp [hf])]
      obtain ⟨l2, hl2⟩ := hQ l rfl lvl
      rw [hl2]
      exact ⟨_, rfl⟩
  · intro lvl
    rw [polishAlts_nil]
    exact ⟨_, rfl⟩
  · intro n sub rest hsub hstrip hrest lvl
    rw [polishAlts_cons]
    cases hrc : cfg.removeAltColdata with
    | true =>
      rw [if_pos rfl]
      obtain ⟨sub1, h1⟩ := hstrip (lvl + 1)
      obtain ⟨rest1, h2⟩ := hrest lvl
      rw [h1, h2]
      exact ⟨_, rfl⟩
    | false =>
      rw [if_neg (by simp)]
      obtain ⟨sub1, h1⟩ := hsub (lvl + 1)
      obtain ⟨rest1, h2⟩ := hrest lvl
      rw [h1, h2]
      exact ⟨_, rfl⟩

/-- C3: with `forbid_nested_altexp=true`, polishing an experiment from the
top level raises the "Nested alternative experiments are forbidden" error
exactly when some alternative experiment at depth at least 1 itself has an
alternative experiment; the error fires as soon as an experiment with
alternative experiments is entered at positive depth (before recursing
into it); with the flag false, polishing succeeds at every level, for any
nesting depth. -/
theorem c3_forbid_nested (cfg : Cfg) (e : Exp) :
    (cfg.forbidNested = true →
      (polishE cfg 0 e = .error nestedErr ↔ e.hasNestedAlt = true)) ∧
    (cfg.forbidNested = true → ∀ lvl sub, 0 < lvl →
      Exp.altsNonempty sub = true → polishE cfg lvl sub = .error nestedErr) ∧
    (cfg.forbidNested = false → ∀ lvl, ∃ e2, polishE cfg lvl e = .ok e2) :=
  ⟨fun hf => polishE_err_iff cfg hf e,
    fun hf lvl sub h1 h2 => polishE_err_of_deep cfg hf lvl h1 sub h2,
    fun hf lvl => polishE_ok_of_noforbid cfg hf e lvl⟩

/-- The default polishing configuration of `polish_dataset`. -/
def cfgDefault : Cfg :=
  { reformat := some (3/10), attemptInt := true,
    removeAltColdata := true, forbidNested := true }

/-- A three-level experiment: top, middle with one alternative experiment,
empty leaf. -/
def eLeaf : Exp := .mk [] none none [] none

/-- Middle experiment holding `eLeaf` as an alternative experiment. -/
def eMid : Exp := .mk [] none none [] (some [("inner", eLeaf)])

/-- Top experiment holding `eMid` as an alternative experiment. -/
def eTop : Exp := .mk [] none none [] (some [("outer", eMid)])

/-- Witness for C3 at the three-level experiment `eTop` and the default
configuration (forbidding nesting): a nested alternative experiment is
present and polishing raises the validation error. -/
theorem c3_forbid_nested_witness :
    cfgDefault.forbidNested = true ∧
      eTop.hasNestedAlt = true ∧
      polishE cfgDefault 0 eTop = .error nestedErr ∧
      (∀ lvl sub, 0 < lvl → Exp.altsNonempty sub = true →
        polishE cfgDefault lvl sub = .error nestedErr) := by
  have hnest : eTop.hasNestedAlt = true := by
    unfold eTop
    rw [hasNestedAlt_some, hasNestedAltList_cons]
    unfold eMid Exp.altsNonempty
    simp [Exp.alts]
  refine ⟨rfl, hnest, ?_, ?_⟩
  · exact ((c3_forbid_nested cfgDefault eTop).1 rfl).mpr hnest
  · exact (c3_forbid_nested cfgDefault eTop).2.1 rfl

theorem polishE_ok_none_struct (cfg : Cfg) (lvl : ℕ) (a : List (String × Mat))
    (rd cd : Option String) (red : List (String × Mat)) (e2 : Exp)
    (h : polishE cfg lvl (.mk a rd cd red none) = .ok e2) :
    e2 = .mk (a.map (fun p => (p.1, polishMat cfg.reformat cfg.attemptInt p.2)))
      rd cd red none := by
  rw [polishE_none] at h
  injection h with h2
  rw [h2]

theorem polishE_ok_some_struct (cfg : Cfg) (lvl : ℕ) (a : List (String × Mat))
    (rd cd : Option String) (red : List (String × Mat))
    (l : List (String × Exp)) (e2 : Exp)
    (h : polishE cfg lvl (.mk a rd cd red (some l)) = .ok e2) :
    (l.length > 0 && cfg.forbidNested && decide (lvl > 0)) = false ∧
    ∃ l2, polishAlts cfg lvl l = .ok l2 ∧
      e2 = .mk (a.map (fun p => (p.1, polishMat cfg.reformat cfg.attemptInt p.2)))
        rd cd red (some l2) := by
  rw [polishE_some] at h
  by_cases hc : (l.length > 0 && cfg.forbidNested && decide (lvl > 0)) = true
  · rw [if_pos hc] at h
    exact absurd h (by simp)
  · have hc2 : (l.length > 0 && cfg.forbidNested && decide (lvl > 0)) = false :=
      Bool.not_eq_true _ ▸ hc
    rw [if_neg (by rw [hc2]; simp)] at h
    refine ⟨hc2, ?_⟩
    cases hpa : polishAlts cfg lvl l with
    | error msg => rw [hpa] at h; exact absurd h (by simp)
    | ok l2 =>
      rw [hpa] at h
      injection h with h2
      exact ⟨l2, rfl, h2.symm⟩

theorem polishAlts_ok_cons_struct (cfg : Cfg) (lvl : ℕ) (n : String)
    (sub : Exp) (rest : List (String × Exp)) (l2 : List (String × Exp))
    (h : polishAlts cfg lvl ((n, sub) :: rest) = .ok l2) :
    ∃ sub1 rest1,
      polishE cfg (lvl + 1)
        (if cfg.removeAltColdata then sub.setColData none else sub) = .ok sub1 ∧
      polishAlts cfg lvl rest = .ok rest1 ∧
      l2 = (n, sub1) :: rest1 := by
  rw [polishAlts_cons] at h
  cases hs : polishE cfg (lvl + 1)
      (if cfg.removeAltColdata then sub.setColData none else sub) with
  | error msg => rw [hs] at h; exact absurd h (by simp)
  | ok sub1 =>
    rw [hs] at h
    cases hr : polishAlts cfg lvl rest with
    | error msg => rw [hr] at h; exact absurd h (by simp)
    | ok rest1 =>
      rw [hr] at h
      injection h with h2
      exact ⟨sub1, rest1, rfl, rfl, h2.symm⟩

theorem polishAlts_ok_length (cfg : Cfg) (lvl : ℕ) :
    ∀ (l l2 : List (String × Exp)), polishAlts cfg lvl l = .ok l2 →
      l2.length = l.length := by
  intro l
  induction l with
  | nil =>
    intro l2 h
    rw [polishAlts_nil] at h
    injection h with h2
    rw [← h2]
  | cons p rest ih =>
    intro l2 h
    obtain ⟨n, sub⟩ := p
    obtain ⟨sub1, rest1, _, hrest, rfl⟩ :=
      polishAlts_ok_cons_struct cfg lvl n sub rest l2 h
    simp [ih rest1 hrest]

theorem exp_colData_mk (a : List (String × Mat)) (rd cd : Option String)
    (red : List (String × Mat)) (al : Option (List (String × Exp))) :
    (Exp.mk a rd cd red al).colData = cd := rfl

theorem setColData_colData (e : Exp) (cd : Option String) :
    (e.setColData cd).colData = cd := by
  cases e
  rfl

theorem setColData_none_of_colData_none (e : Exp) (h : e.colData = none) :
    e.setColData none = e := by
  cases e with
  | mk a rd cd red al =>
    rw [exp_colData_mk] at h
    rw [h]
    rfl

theorem polishE_ok_colData (cfg : Cfg) (lvl : ℕ) (e e2 : Exp)
    (h : polishE cfg lvl e = .ok e2) :
    e2.colData = e.colData ∧ e2.rowData = e.rowData ∧ e2.redDims = e.redDims := by
  cases e with
  | mk a rd cd red al =>
    cases al with
    | none =>
      rw [polishE_ok_none_struct cfg lvl a rd cd red e2 h]
      exact ⟨rfl, rfl, rfl⟩
    | some l =>
      obtain ⟨-, l2, -, rfl⟩ := polishE_ok_some_struct cfg lvl a rd cd red l e2 h
      exact ⟨rfl, rfl, rfl⟩

theorem allAltColData_none (a : List (String × Mat)) (rd cd : Option String)
    (red : List (String × Mat)) :
    (Exp.mk a rd cd red none).allAltColData = [] := by
  rw [Exp.allAltColData]

theorem allAltColData_some (a : List (String × Mat)) (rd cd : Option String)
    (red : List (String × Mat)) (l : List (String × Exp)) :
    (Exp.mk a rd cd red (some l)).allAltColData = allAltColDataList l := by
  rw [Exp.allAltColData]

theorem allAltColDataList_nil : allAltColDataList [] = [] := by
  rw [allAltColDataList]

theorem allAltColDataList_cons (n : String) (sub : Exp)
    (rest : List (String × Exp)) :
    allAltColDataList ((n, sub) :: rest) =
      (sub.colData :: sub.allAltColData) ++ allAltColDataList rest := by
  rw [allAltColDataList]

theorem setColData_allAltColData (e : Exp) (cd : Option String) :
    (e.setColData cd).allAltColData = e.allAltColData := by
  cases e with
  | mk a rd cd0 red al =>
    cases al with
    | none => rw [Exp.setColData, allAltColData_none, allAltColData_none]
    | some l => rw [Exp.setColData, allAltColData_some, allAltColData_some]

theorem polishE_altColData (cfg : Cfg) (e : Exp) :
    ∀ lvl e2, polishE cfg lvl e = .ok e2 →
      (cfg.removeAltColdata = true → ∀ cd ∈ e2.allAltColData, cd = none) ∧
      (cfg.removeAltColdata = false → e2.allAltColData = e.allAltColData) := by
  refine expInd
    (P := fun e => ∀ lvl e2, polishE cfg lvl e = .ok e2 →
      (cfg.removeAltColdata = true → ∀ cd ∈ e2.allAltColData, cd = none) ∧
      (cfg.removeAltColdata = false → e2.allAltColData = e.allAltColData))
    (Q := fun l => ∀ lvl l2, polishAlts cfg lvl l = .ok l2 →
      (cfg.removeAltColdata = true →
        ∀ cd ∈ allAltColDataList l2, cd = none) ∧
      (cfg.removeAltColdata = false →
        allAltColDataList l2 = allAltColDataList l)) ?_ ?_ ?_ e
  · intro a rd cd red al hQ lvl e2 h
    cases al with
    | none =>
      rw [polishE_ok_none_struct cfg lvl a rd cd red e2 h]
      rw [allAltColData_none]
      exact ⟨fun _ cd2 h2 => absurd h2 (by simp),
        fun _ => by rw [allAltColData_none]⟩
    | some l =>
      obtain ⟨-, l2, hl2, rfl⟩ := polishE_ok_some_struct cfg lvl a rd cd red l e2 h
      rw [allAltColData_some, allAltColData_some]
      exact hQ l rfl lvl l2 hl2
  · intro lvl l2 h
    rw [polishAlts_nil] at h
    injection h with h2
    rw [← h2, allAltColDataList_nil]
    exact ⟨fun _ cd2 h2 => absurd h2 (by simp), fun _ => rfl⟩
  · intro n sub rest hsub hstrip hrest lvl l2 h
    obtain ⟨sub1, rest1, hs1, hr1, rfl⟩ :=
      polishAlts_ok_cons_struct cfg lvl n sub rest l2 h
    rw [allAltColDataList_cons, allAltColDataList_cons]
    constructor
    · intro hrc cd2 hcd2
      rw [if_pos hrc] at hs1
      have hcol : sub1.colData = none := by
        rw [(polishE_ok_colData cfg (lvl + 1) _ sub1 hs1).1,
          setColData_colData]
      have hnested := (hstrip (lvl + 1) sub1 hs1).1 hrc
      have hrest2 := (hrest lvl rest1 hr1).1 hrc
      rcases List.mem_append.mp hcd2 with hin | hin
      · rcases List.mem_cons.mp hin with rfl | hin2
        · exact hcol
        · exact hnested cd2 hin2
      · exact hrest2 cd2 hin
    · intro hrc
      rw [if_neg (by rw [hrc]; simp)] at hs1
      have hcol : sub1.colData = sub.colData :=
        (polishE_ok_colData cfg (lvl + 1) sub sub1 hs1).1
      have hnested := (hsub (lvl + 1) sub1 hs1).2 hrc
      have hrest2 := (hrest lvl rest1 hr1).2 hrc
      rw [hcol, hnested, hrest2]

/-- C6: polishing leaves the top-level column annotations, row annotations
and reduced dimensions unchanged; with `remove_altexp_coldata=true` the
column annotations of every alternative experiment, at every nesting
depth, come back empty; with the flag false every alternative experiment's
column annotations are returned exactly as they were. -/
theorem c6_remove_altexp_coldata (cfg : Cfg) (e e2 : Exp)
    (h : polishE cfg 0 e = .ok e2) :
    (e2.colData = e.colData ∧ e2.rowData = e.rowData ∧
      e2.redDims = e.redDims) ∧
    (cfg.removeAltColdata = true → ∀ cd ∈ e2.allAltColData, cd = none) ∧
    (cfg.removeAltColdata = false → e2.allAltColData = e.allAltColData) :=
  ⟨polishE_ok_colData cfg 0 e e2 h, (polishE_altColData cfg e 0 e2 h).1,
    (polishE_altColData cfg e 0 e2 h).2⟩

/-- An experiment with annotations everywhere, for concrete evaluation. -/
def eWit : Exp :=
  .mk [] (some "rows") (some "cols") []
    (some [("alt", .mk [] none (some "altcols") [] none)])

/-- The polished form of `eWit` under the default configuration. -/
def eWitPolished : Exp :=
  .mk [] (some "rows") (some "cols") []
    (some [("alt", .mk [] none none [] none)])

theorem polishE_eWit : polishE cfgDefault 0 eWit = .ok eWitPolished := by
  unfold eWit eWitPolished
  rw [polishE_some, if_neg (by decide), polishAlts_cons,
    if_pos (show cfgDefault.removeAltColdata = true from rfl)]
  rw [show (Exp.mk [] none (some "altcols") [] none).setColData none =
    Exp.mk ([] : List (String × Mat)) none none [] none from rfl]
  rw [polishE_none, polishAlts_nil]
  rfl

/-- Witness for C6: polishing `eWit` with the default configuration keeps
the top-level annotations and empties the alternative experiment's column
annotations. -/
theorem c6_remove_altexp_coldata_witness :
    polishE cfgDefault 0 eWit = .ok eWitPolished ∧
      ((eWitPolished.colData = eWit.colData ∧
        eWitPolished.rowData = eWit.rowData ∧
        eWitPolished.redDims = eWit.redDims) ∧
      (cfgDefault.removeAltColdata = true →
        ∀ cd ∈ eWitPolished.allAltColData, cd = none) ∧
      (cfgDefault.removeAltColdata = false →
        eWitPolished.allAltColData = eWit.allAltColData)) :=
  ⟨polishE_eWit, c6_remove_altexp_coldata cfgDefault eWit eWitPolished polishE_eWit⟩

theorem allAssayMats_none (a : List (String × Mat)) (rd cd : Option String)
    (red : List (String × Mat)) :
    (Exp.mk a rd cd red none).allAssayMats = a.map Prod.snd := by
  rw [Exp.allAssayMats]

theorem allAssayMats_some (a : List (String × Mat)) (rd cd : Option String)
    (red : List (String × Mat)) (l : List (String × Exp)) :
    (Exp.mk a rd cd red (some l)).allAssayMats =
      a.map Prod.snd ++ allAssayMatsList l := by
  rw [Exp.allAssayMats]

theorem allAssayMatsList_nil : allAssayMatsList [] = [] := by
  rw [allAssayMatsList]

theorem allAssayMatsList_cons (n : String) (sub : Exp)
    (rest : List (String × Exp)) :
    allAssayMatsList ((n, sub) :: rest) =
      sub.allAssayMats ++ allAssayMatsList rest := by
  rw [allAssayMatsList]

theorem setColData_allAssayMats (e : Exp) (cd : Option String) :
    (e.setColData cd).allAssayMats = e.allAssayMats := by
  cases e with
  | mk a rd cd0 red al =>
    cases al with
    | none => rw [Exp.setColData, allAssayMats_none, allAssayMats_none]
    | some l => rw [Exp.setColData, allAssayMats_some, allAssayMats_some]

theorem map_snd_polished (cfg : Cfg) (a : List (String × Mat)) :
    (a.map (fun p => (p.1, polishMat cfg.reformat cfg.attemptInt p.2))).map
        Prod.snd =
      (a.map Prod.snd).map (polishMat cfg.reformat cfg.attemptInt) := by
  rw [List.map_map, List.map_map]
  apply List.map_congr_left
  intro p _
  rfl

theorem polishE_allAssayMats (cfg : Cfg) (e : Exp) :
    ∀ lvl e2, polishE cfg lvl e = .ok e2 →
      e2.allAssayMats =
        e.allAssayMats.map (polishMat cfg.reformat cfg.attemptInt) := by
  refine expInd
    (P := fun e => ∀ lvl e2, polishE cfg lvl e = .ok e2 →
      e2.allAssayMats =
        e.allAssayMats.map (polishMat cfg.reformat cfg.attemptInt))
    (Q := fun l => ∀ lvl l2, polishAlts cfg lvl l = .ok l2 →
      allAssayMatsList l2 =
        (allAssayMatsList l).map (polishMat cfg.reformat cfg.attemptInt)) ?_ ?_ ?_ e
  · intro a rd cd red al hQ lvl e2 h
    cases al with
    | none =>
      rw [polishE_ok_none_struct cfg lvl a rd cd red e2 h]
      rw [allAssayMats_none, allAssayMats_none, map_snd_polished]
    | some l =>
      obtain ⟨-, l2, hl2, rfl⟩ := polishE_ok_some_struct cfg lvl a rd cd red l e2 h
      rw [allAssayMats_some, allAssayMats_some, List.map_append,
        map_snd_polished, hQ l rfl lvl l2 hl2]
  · intro lvl l2 h
    rw [polishAlts_nil] at h
    injection h with h2
    rw [← h2, allAssayMatsList_nil]
    rfl
  · intro n sub rest hsub hstrip hrest lvl l2 h
    obtain ⟨sub1, rest1, hs1, hr1, rfl⟩ :=
      polishAlts_ok_cons_struct cfg lvl n sub rest l2 h
    rw [allAssayMatsList_cons, allAssayMatsList_cons, List.map_append]
    congr 1
    · cases hrc : cfg.removeAltColdata with
      | true =>
        rw [if_pos (by rw [hrc]) ] at hs1
        rw [hstrip (lvl + 1) sub1 hs1, setColData_allAssayMats]
      | false =>
        rw [if_neg (by rw [hrc]; simp)] at hs1
        exact hsub (lvl + 1) sub1 hs1
    · exact hrest lvl rest1 hr1

/-- C4: polishing never changes logical values.  For a well-formed assay
matrix with no NaN whose density is below the threshold, polishing with
density conversion on and integer conversion off yields a sparse matrix
whose densification equals the original grid element-wise; and in every
polished experiment, every assay matrix at every nesting level is exactly
`polishMat` of the corresponding original assay matrix. -/
theorem c4_roundtrip_preserves_values :
    (∀ (t : ℚ) (m : Mat), m.wf = true → Val.nan ∉ m.grid.flatten →
      0 < m.numEntries → densitySpec m < t →
      (polishMat (some t) false m).enc = .sparse ∧
      (polishMat (some t) false m).toDense.grid = m.grid) ∧
    (∀ (cfg : Cfg) (lvl : ℕ) (e e2 : Exp), polishE cfg lvl e = .ok e2 →
      e2.allAssayMats =
        e.allAssayMats.map (polishMat cfg.reformat cfg.attemptInt)) := by
  constructor
  · intro t m hwf _hnn hn hlt
    have hdc : densityCode m < t := by
      rw [densityCode_eq_densitySpec m hn]
      exact hlt
    constructor
    · rw [enc_polishMat, enc_reformat_some, if_pos hdc]
    · show (reformatMat (some t) m).toDense.grid = m.grid
      rw [grid_toDense]
      exact grid_reformat (some t) m hwf
  · intro cfg lvl e e2 h
    exact polishE_allAssayMats cfg e lvl e2 h

/-- The dense float matrix [[1, 0]]: density 1/2, no NaN. -/
def matWit : Mat := .dense .float 2 [[.num 1, .num 0]]

theorem matWit_density_lt : densitySpec matWit < 1 := by
  unfold densitySpec
  rw [show matWit.countP Val.nonzeroOrNaN = 1 from rfl,
    show matWit.numEntries = 2 from rfl]
  norm_num

/-- Witness for C4 at the dense float matrix [[1, 0]] (density 1/2, below
the threshold 1). -/
theorem c4_roundtrip_witness :
    (matWit.wf = true ∧ Val.nan ∉ matWit.grid.flatten ∧
      0 < matWit.numEntries ∧ densitySpec matWit < 1) ∧
    ((polishMat (some 1) false matWit).enc = .sparse ∧
      (polishMat (some 1) false matWit).toDense.grid = matWit.grid) :=
  ⟨⟨by decide, by decide, by decide, matWit_density_lt⟩,
    c4_roundtrip_preserves_values.1 1 matWit
      (by decide) (by decide) (by decide) matWit_density_lt⟩

theorem wfe_none (a : List (String × Mat)) (rd cd : Option String)
    (red : List (String × Mat)) :
    (Exp.mk a rd cd red none).wfe = a.all (fun p => p.2.wf) := by
  rw [Exp.wfe]

theorem wfe_some (a : List (String × Mat)) (rd cd : Option String)
    (red : List (String × Mat)) (l : List (String × Exp)) :
    (Exp.mk a rd cd red (some l)).wfe =
      (a.all (fun p => p.2.wf) && wfeList l) := by
  rw [Exp.wfe]

theorem wfeList_nil : wfeList [] = true := by
  rw [wfeList]

theorem wfeList_cons (n : String) (sub : Exp) (rest : List (String × Exp)) :
    wfeList ((n, sub) :: rest) = (sub.wfe && wfeList rest) := by
  rw [wfeList]

theorem setColData_wfe (e : Exp) (cd : Option String) :
    (e.setColData cd).wfe = e.wfe := by
  cases e with
  | mk a rd cd0 red al =>
    cases al with
    | none => rw [Exp.setColData, wfe_none, wfe_none]
    | some l => rw [Exp.setColData, wfe_some, wfe_some]

theorem polished_assays_idem (cfg : Cfg) (a : List (String × Mat))
    (h : a.all (fun p => p.2.wf) = true) :
    ((a.map (fun p => (p.1, polishMat cfg.reformat cfg.attemptInt p.2))).map
        (fun p => (p.1, polishMat cfg.reformat cfg.attemptInt p.2))) =
      a.map (fun p => (p.1, polishMat cfg.reformat cfg.attemptInt p.2)) := by
  rw [List.map_map]
  apply List.map_congr_left
  intro p hp
  rw [List.all_eq_true] at h
  have hw : p.2.wf = true := by simpa using h p hp
  show (p.1, polishMat cfg.reformat cfg.attemptInt
      (polishMat cfg.reformat cfg.attemptInt p.2)) =
    (p.1, polishMat cfg.reformat cfg.attemptInt p.2)
  rw [polishMat_idem cfg.reformat cfg.attemptInt p.2 hw]

theorem polishE_idem (cfg : Cfg) (e : Exp) :
    ∀ lvl e2, e.wfe = true → polishE cfg lvl e = .ok e2 →
      polishE cfg lvl e2 = .ok e2 := by
  refine expInd
    (P := fun e => ∀ lvl e2, e.wfe = true → polishE cfg lvl e = .ok e2 →
      polishE cfg lvl e2 = .ok e2)
    (Q := fun l => ∀ lvl l2, wfeList l = true → polishAlts cfg lvl l = .ok l2 →
      polishAlts cfg lvl l2 = .ok l2) ?_ ?_ ?_ e
  · intro a rd cd red al hQ lvl e2 hwf h
    cases al with
    | none =>
      rw [polishE_ok_none_struct cfg lvl a rd cd red e2 h]
      rw [polishE_none]
      rw [wfe_none] at hwf
      rw [polished_assays_idem cfg a hwf]
    | some l =>
      obtain ⟨hc, l2, hl2, rfl⟩ := polishE_ok_some_struct cfg lvl a rd cd red l e2 h
      rw [wfe_some, Bool.and_eq_true] at hwf
      obtain ⟨hwa, hwl⟩ := hwf
      have hlen : l2.length = l.length := polishAlts_ok_length cfg lvl l l2 hl2
      rw [polishE_some]
      have hc2 : (l2.length > 0 && cfg.forbidNested && decide (lvl > 0)) = false := by
        rw [hlen]
        exact hc
      rw [if_neg (by rw [hc2]; simp)]
      rw [hQ l rfl lvl l2 hwl hl2]
      rw [polished_assays_idem cfg a hwa]
  · intro lvl l2 _ h
    rw [polishAlts_nil] at h
    injection h with h2
    rw [← h2, polishAlts_nil]
  · intro n sub rest hsub hstrip hrest lvl l2 hwl h
    rw [wfeList_cons, Bool.and_eq_true] at hwl
    obtain ⟨hws, hwr⟩ := hwl
    obtain ⟨sub1, rest1, hs1, hr1, rfl⟩ :=
      polishAlts_ok_cons_struct cfg lvl n sub rest l2 h
    rw [polishAlts_cons]
    cases hrc : cfg.removeAltColdata with
    | true =>
      rw [if_pos (by rw [hrc])] at hs1
      have hcol : sub1.colData = none := by
        rw [(polishE_ok_colData cfg (lvl + 1) _ sub1 hs1).1, setColData_colData]
      have hidem := hstrip (lvl + 1) sub1
        (by rw [setColData_wfe]; exact hws) hs1
      rw [if_pos rfl,
        setColData_none_of_colData_none sub1 hcol, hidem,
        hrest lvl rest1 hwr hr1]
    | false =>
      rw [if_neg (by rw [hrc]; simp)] at hs1
      have hidem := hsub (lvl + 1) sub1 hws hs1
      rw [if_neg (by simp), hidem, hrest lvl rest1 hwr hr1]

/-- C5: polishing is idempotent.  For any configuration under which
polishing an experiment (with well-formed assay matrices) succeeds,
polishing the result again with the same configuration returns it
unchanged: encodings, element types, values, annotations and the nested
structure are all fixed points of the second pass. -/
theorem c5_polish_idempotent (cfg : Cfg) (e e2 : Exp) (hwf : e.wfe = true)
    (h : polishE cfg 0 e = .ok e2) : polishE cfg 0 e2 = .ok e2 :=
  polishE_idem cfg e 0 e2 hwf h

/-- Witness for C5: polishing `eWit` under the default configuration gives
`eWitPolished`, and polishing that again returns it unchanged. -/
theorem c5_polish_idempotent_witness :
    eWit.wfe = true ∧ polishE cfgDefault 0 eWit = .ok eWitPolished ∧
      polishE cfgDefault 0 eWitPolished = .ok eWitPolished := by
  have hwf : eWit.wfe = true := by
    unfold eWit
    rw [wfe_some, wfeList_cons, wfe_none, wfeList_nil]
    rfl
  exact ⟨hwf, polishE_eWit,
    c5_polish_idempotent cfgDefault eWit eWitPolished hwf polishE_eWit⟩

theorem saveSE_fail1 (valid : Metadata → Bool) (x : SEView) (objType : String)
    (md : Metadata) (h : valid (enrichedMeta md) = false) :
    saveSE valid x objType md =
      { result := .error "ValidationError", metaFinal := enrichedMeta md,
        objectWritten := false, metadataFile := none,
        validated := [enrichedMeta md] } := by
  simp only [saveSE]
  rw [if_pos h]

theorem saveSE_fail2 (valid : Metadata → Bool) (x : SEView) (objType : String)
    (md : Metadata) (h1 : valid (enrichedMeta md) = true)
    (h2 : valid (finalMeta x objType md) = false) :
    saveSE valid x objType md =
      { result := .error "ValidationError",
        metaFinal := finalMeta x objType md, objectWritten := true,
        metadataFile := none,
        validated := [enrichedMeta md, finalMeta x objType md] } := by
  simp only [saveSE]
  rw [if_neg (by rw [h1]; simp), if_pos h2]

theorem saveSE_ok (valid : Metadata → Bool) (x : SEView) (objType : String)
    (md : Metadata) (h1 : valid (enrichedMeta md) = true)
    (h2 : valid (finalMeta x objType md) = true) :
    saveSE valid x objType md =
      { result := .ok (), metaFinal := finalMeta x objType md,
        objectWritten := true, metadataFile := some (finalMeta x objType md),
        validated := [enrichedMeta md, finalMeta x objType md] } := by
  simp only [saveSE]
  rw [if_neg (by rw [h1]; simp), if_neg (by rw [h2]; simp)]

/-- C7: `_save_se` validates the metadata twice, first the caller document
(with the version default) before the object payload is written, then the
takane-enriched document; either failure aborts with no
`_bioconductor.json` content written, and a second-validation failure
happens with the object payload already written (not rolled back); on
success exactly the two documents were validated and the enriched document
is written. -/
theorem c7_save_validation (valid : Metadata → Bool) (x : SEView)
    (objType : String) (md : Metadata) :
    (valid (enrichedMeta md) = false →
      (saveSE valid x objType md).result = .error "ValidationError" ∧
      (saveSE valid x objType md).metadataFile = none ∧
      (saveSE valid x objType md).objectWritten = false ∧
      (saveSE valid x objType md).validated = [enrichedMeta md]) ∧
    (valid (enrichedMeta md) = true → valid (finalMeta x objType md) = false →
      (saveSE valid x objType md).result = .error "ValidationError" ∧
      (saveSE valid x objType md).metadataFile = none ∧
      (saveSE valid x objType md).objectWritten = true ∧
      (saveSE valid x objType md).validated =
        [enrichedMeta md, finalMeta x objType md]) ∧
    (valid (enrichedMeta md) = true → valid (finalMeta x objType md) = true →
      (saveSE valid x objType md).result = .ok () ∧
      (saveSE valid x objType md).metadataFile =
        some (finalMeta x objType md) ∧
      (saveSE valid x objType md).validated =
        [enrichedMeta md, finalMeta x objType md]) := by
  refine ⟨fun h => ?_, fun h1 h2 => ?_, fun h1 h2 => ?_⟩
  · rw [saveSE_fail1 valid x objType md h]
    exact ⟨rfl, rfl, rfl, rfl⟩
  · rw [saveSE_fail2 valid x objType md h1 h2]
    exact ⟨rfl, rfl, rfl, rfl⟩
  · rw [saveSE_ok valid x objType md h1 h2]
    exact ⟨rfl, rfl, rfl⟩

/-- A concrete experiment view for the save witnesses. -/
def sevWit : SEView :=
  { nrows := 100, ncols := 10, assayNames := ["counts"],
    colDataNames := ["cell"], isSCE := true, reducedDimNames := ["pca"],
    altExpNames := [] }

/-- A concrete caller metadata document without a bioconductor version. -/
def mdWit : Metadata := { fields := [("title", "T")], applications := none }

/-- Witness for C7 with an always-accepting validator: both validations
pass, the result is success and the enriched document is written. -/
theorem c7_save_validation_witness :
    (fun _ : Metadata => true) (enrichedMeta mdWit) = true ∧
      (fun _ : Metadata => true) (finalMeta sevWit "sce" mdWit) = true ∧
      ((saveSE (fun _ => true) sevWit "sce" mdWit).result = .ok () ∧
        (saveSE (fun _ => true) sevWit "sce" mdWit).metadataFile =
          some (finalMeta sevWit "sce" mdWit) ∧
        (saveSE (fun _ => true) sevWit "sce" mdWit).validated =
          [enrichedMeta mdWit, finalMeta sevWit "sce" mdWit]) :=
  ⟨rfl, rfl,
    (c7_save_validation (fun _ => true) sevWit "sce" mdWit).2.2 rfl rfl⟩

theorem setTakane_fields (m : Metadata) (t : Takane) :
    (m.setTakane t).fields = m.fields := rfl

theorem getField_setTakane (m : Metadata) (t : Takane) (k : String) :
    (m.setTakane t).getField k = m.getField k := by
  unfold Metadata.getField
  rw [setTakane_fields]

theorem getField_setField_self (m : Metadata) (k v : String)
    (h : m.hasField k = false) : (m.setField k v).getField k = some v := by
  unfold Metadata.setField
  rw [if_neg (by rw [h]; simp)]
  unfold Metadata.getField
  rw [List.find?_append]
  have hnone : m.fields.find? (fun p => decide (p.1 = k)) = none := by
    rw [List.find?_eq_none]
    intro p hp
    unfold Metadata.hasField at h
    rw [List.any_eq_false] at h
    simpa using h p hp
  rw [hnone]
  simp

theorem getField_enrichedMeta (md : Metadata)
    (h : md.hasField "bioconductor_version" = false) :
    (enrichedMeta md).getField "bioconductor_version" = some "3.19" := by
  unfold enrichedMeta
  rw [if_neg (by rw [h]; simp)]
  exact getField_setField_self md _ _ h

theorem setTakane_apps (m : Metadata) (t : Takane) :
    ∃ apps, (m.setTakane t).applications = some apps ∧ apps.takane = some t := by
  unfold Metadata.setTakane
  cases m.applications <;> exact ⟨_, rfl, rfl⟩

/-- C10: `_save_se` mutates the caller-supplied metadata dictionary in
place: after any call the caller's document carries
`bioconductor_version = "3.19"` when it was absent; after any call that
passed the first validation (successful or post-enrichment-failed) it
carries the computed takane block under `applications.takane`; and the
written `_bioconductor.json` is exactly the mutated document. -/
theorem c10_metadata_mutation (valid : Metadata → Bool) (x : SEView)
    (objType : String) (md : Metadata) :
    (md.hasField "bioconductor_version" = false →
      (saveSE valid x objType md).metaFinal.getField "bioconductor_version" =
        some "3.19") ∧
    (valid (enrichedMeta md) = true →
      ∃ apps, (saveSE valid x objType md).metaFinal.applications = some apps ∧
        apps.takane = some (savedTakane x objType)) ∧
    (∀ f, (saveSE valid x objType md).metadataFile = some f →
      f = (saveSE valid x objType md).metaFinal) := by
  refine ⟨fun h => ?_, fun h1 => ?_, fun f hf => ?_⟩
  · cases hv1 : valid (enrichedMeta md) with
    | false =>
      rw [saveSE_fail1 valid x objType md hv1]
      exact getField_enrichedMeta md h
    | true =>
      cases hv2 : valid (finalMeta x objType md) with
      | false =>
        rw [saveSE_fail2 valid x objType md hv1 hv2]
        show (finalMeta x objType md).getField "bioconductor_version" = _
        unfold finalMeta
        rw [getField_setTakane]
        exact getField_enrichedMeta md h
      | true =>
        rw [saveSE_ok valid x objType md hv1 hv2]
        show (finalMeta x objType md).getField "bioconductor_version" = _
        unfold finalMeta
        rw [getField_setTakane]
        exact getField_enrichedMeta md h
  · cases hv2 : valid (finalMeta x objType md) with
    | false =>
      rw [saveSE_fail2 valid x objType md h1 hv2]
      exact setTakane_apps (enrichedMeta md) (savedTakane x objType)
    | true =>
      rw [saveSE_ok valid x objType md h1 hv2]
      exact setTakane_apps (enrichedMeta md) (savedTakane x objType)
  · cases hv1 : valid (enrichedMeta md) with
    | false =>
      rw [saveSE_fail1 valid x objType md hv1] at hf
      exact absurd hf (by simp)
    | true =>
      cases hv2 : valid (finalMeta x objType md) with
      | false =>
        rw [saveSE_fail2 valid x objType md hv1 hv2] at hf
        exact absurd hf (by simp)
      | true =>
        rw [saveSE_ok valid x objType md hv1 hv2] at hf ⊢
        injection hf with h2
        rw [h2]

/-- Witness for C10 at a metadata document without a bioconductor version
and an always-accepting validator. -/
theorem c10_metadata_mutation_witness :
    mdWit.hasField "bioconductor_version" = false ∧
      (saveSE (fun _ => true) sevWit "sce" mdWit).metaFinal.getField
        "bioconductor_version" = some "3.19" ∧
      (∃ apps,
        (saveSE (fun _ => true) sevWit "sce" mdWit).metaFinal.applications =
          some apps ∧ apps.takane = some (savedTakane sevWit "sce")) :=
  ⟨by decide,
    (c10_metadata_mutation (fun _ => true) sevWit "sce" mdWit).1 (by decide),
    (c10_metadata_mutation (fun _ => true) sevWit "sce" mdWit).2.1 rfl⟩

/-- C8 evaluation: `_sanitize_query_to_output` fills the `description`
column from the `title` field (line 105 uses `lambda x: x.get("title")`),
so a document with title "T" and description "D" yields "T" in the
description column, not its own description; the `title` column is
correct. -/
theorem c8_description_column_is_title :
    descriptionColumn [{ title := some "T", description := some "D" }] =
      [some "T"] ∧
    descriptionColumn [{ title := some "T", description := some "D" }] ≠
      [(({ title := some "T", description := some "D" } : DsMeta)).description] ∧
    titleColumn [{ title := some "T", description := some "D" }] =
      [some "T"] :=
  ⟨rfl, by decide, rfl⟩

/-- C9 evaluation: with `latest=False`, `list_datasets` (line 54) appends
`versions.latest AS latest` with no comma after `path`, producing a
malformed SELECT whose result columns do not include the latest flag,
while `search_datasets` (line 95) appends it with a comma and does select
it; with `latest=True` both functions restrict to `versions.latest = 1`
and select no latest column; the latest column values map through
`s == 1`. -/
theorem c9_latest_query_shape :
    list_datasets_stmt false =
      "SELECT json_extract(metadata, '$') AS meta, versions.asset AS asset, versions.version AS version, path versions.latest AS latest FROM paths LEFT JOIN versions ON paths.vid = versions.vid WHERE versions.project = 'scRNAseq'" ∧
    "versions.latest AS latest" ∉ selectItems (list_datasets_stmt false) ∧
    "path versions.latest AS latest" ∈ selectItems (list_datasets_stmt false) ∧
    "versions.latest AS latest" ∈ selectItems (search_datasets_stmt false []) ∧
    search_datasets_stmt false [] =
      "SELECT json_extract(metadata, '$') AS meta, versions.asset AS asset, versions.version AS version, path, versions.latest AS latest FROM paths LEFT JOIN versions ON paths.vid = versions.vid WHERE versions.project = 'scRNAseq'" ∧
    list_datasets_stmt true =
      "SELECT json_extract(metadata, '$') AS meta, versions.asset AS asset, versions.version AS version, path FROM paths LEFT JOIN versions ON paths.vid = versions.vid WHERE versions.project = 'scRNAseq' AND versions.latest = 1" ∧
    search_datasets_stmt true [] = list_datasets_stmt true ∧
    "versions.latest AS latest" ∉ selectItems (list_datasets_stmt true) ∧
    "versions.latest AS latest" ∉ selectItems (search_datasets_stmt true []) ∧
    list_datasets_keyNames false = ["meta", "asset", "version", "path", "latest"] ∧
    search_datasets_keyNames false = ["meta", "asset", "version", "path", "latest"] ∧
    latestColumn [1, 0] = [true, false] :=
  ⟨rfl, by decide, by decide, by decide, rfl, rfl, rfl, by decide, by decide,
    rfl, rfl, rfl⟩

end Scrnaseq
